import Mathlib

/-!
Shallow embedding of the newsapi-ai query expansion, pagination, deduplication
and tool-dispatch layers, together with theorems checking the repository's
specification against the code.

Source files embedded:
* `.actor/src/api_client/models.py` — validators, `EverythingQuery`,
  `TopHeadlinesQuery`, `SourcesQuery`, `UserQuery` and its generators;
* `src/api_client/news_client.py` — `NewsAPIClient.search_everything`,
  `search_top_headlines`, `get_sources` (HTTP transport abstracted as a
  fallible fetch function, pagination while-loop given explicit fuel);
* `src/intent/news_agent.py` — `NewsAgent.process_request` dispatch loop
  (the LLM oracle abstracted as a stream of turns consumed one per call).

Python conventions carried over: optional values are `Option`, Python ints are
`Int`, Python truthiness of optional strings/lists is made explicit
(`truthyStr` / `truthyList`: `None`, `""` and `[]` are falsy), and
`datetime` values are kept as opaque strings since no claim depends on date
parsing or formatting.
-/

/-- Python truthiness of an `Optional[str]`: `None` and `""` are falsy. -/
def truthyStr : Option String → Bool
  | none => false
  | some s => !(s == "")

/-- Python truthiness of an `Optional[list]`: `None` and `[]` are falsy. -/
def truthyList {α : Type} : Option (List α) → Bool
  | none => false
  | some l => !l.isEmpty

/-- The Python idiom `xs if xs else [None]` used by the query generators:
iterate the values of a list field, or a single `None` placeholder when the
field is falsy. -/
def optIter {α : Type} : Option (List α) → List (Option α)
  | none => [none]
  | some l => if l.isEmpty then [none] else l.map some

/-- Lowercasing as Python `str.lower()` on the ASCII identifiers this code
handles (character-by-character, so that the kernel can evaluate it). -/
def strLower (s : String) : String := String.mk (s.data.map Char.toLower)

/-- Membership count of an optional scalar field (used to state the
"at most one value" constraints). -/
def optCount {α : Type} : Option α → Nat
  | none => 0
  | some _ => 1

/-- The Python chunking comprehension
`[xs[i:i+20] for i in range(0, len(xs), 20)]` from
`UserQuery.generate_everything_queries` / `generate_headlines_queries`. -/
def chunksOf20 {α : Type} (l : List α) : List (List α) :=
  (List.range ((l.length + 19) / 20)).map (fun i => (l.drop (20 * i)).take 20)

/-- Cartesian product of two lists in Python nested-loop order (first
component outermost), used to word the spec-side descriptions. -/
def cartProd {α β : Type} (l₁ : List α) (l₂ : List β) : List (α × β) :=
  l₁.flatMap (fun a => l₂.map (fun b => (a, b)))

/-- Python slicing `l[:m]` for a possibly negative `m` (a negative bound
counts from the end of the list, clamped at zero). -/
def pySlice {α : Type} (l : List α) (m : Int) : List α :=
  if 0 ≤ m then l.take m.toNat else l.take (l.length - (-m).toNat)

/-- The truncation step of the result merger:
`if len(l) > m: l = l[:m]` from `news_client.py`. -/
def pyTruncate {α : Type} (l : List α) (m : Int) : List α :=
  if (l.length : Int) > m then pySlice l m else l

/-- Worker of the dict-based dedup loop of `news_client.py`: walk the raw
records in order keeping the first record for each truthy key, skipping
records whose key is `None` or `""` (Python `if key and key not in seen`). -/
def dedupAux {α : Type} (key : α → Option String) (seen : List String) :
    List α → List α
  | [] => []
  | a :: rest =>
    match key a with
    | some u =>
      if u ≠ "" ∧ ¬ seen.contains u then a :: dedupAux key (u :: seen) rest
      else dedupAux key seen rest
    | none => dedupAux key seen rest

/-- The `unique_articles` / `unique_sources` insertion-ordered dict dedup of
`news_client.py`, keyed by an extracted optional string. -/
def dedupByKey {α : Type} (key : α → Option String) (l : List α) : List α :=
  dedupAux key [] l

/-! ## `models.py` — validators -/

/-- `validate_query_string`: truncate the query to 500 characters. -/
def validate_query_string (q : String) : String :=
  if q.length > 500 then ⟨q.data.take 500⟩ else q

/-- Allow-list of `validate_searchIn`. -/
def searchInAllowed : List String := ["title", "description", "content"]

/-- Allow-list of `validate_language_codes` (14 ISO-639-1 codes). -/
def languagesAllowed : List String :=
  ["ar", "de", "en", "es", "fr", "he", "it", "nl", "no", "pt", "ru", "sv", "ud", "zh"]

/-- Allow-list of `validate_country_code` (54 ISO 3166-1 alpha-2 codes). -/
def countriesAllowed : List String :=
  ["ae", "ar", "at", "au", "be", "bg", "br", "ca", "ch", "cn", "co", "cu", "cz", "de",
   "eg", "fr", "gb", "gr", "hk", "hu", "id", "ie", "il", "in", "it", "jp", "kr", "lt",
   "lv", "ma", "mx", "my", "ng", "nl", "no", "nz", "ph", "pl", "pt", "ro", "rs", "ru",
   "sa", "se", "sg", "si", "sk", "th", "tr", "tw", "ua", "us", "ve", "za"]

/-- Allow-list of `validate_categories`. -/
def categoriesAllowed : List String :=
  ["business", "entertainment", "general", "health", "science", "sports", "technology"]

/-- Allow-list of `validate_sortBy` (matched case-sensitively in the code). -/
def sortByAllowed : List String := ["relevancy", "popularity", "publishedAt"]

/-- Python `set(a) == set(b)` on string lists: mutual membership. -/
def sameSet (a b : List String) : Bool :=
  a.all (fun x => b.contains x) && b.all (fun x => a.contains x)

/-- The case-insensitive filter shared by the list validators:
`[x.lower() for x in l if x.lower() in allowed]`. -/
def lowerValid (allowed : List String) (l : List String) : List String :=
  (l.filter (fun s => allowed.contains (strLower s))).map strLower

/-- Common shape of `validate_searchIn`, `validate_language_codes`,
`validate_country_code` and `validate_categories`: return `None` on a falsy
input, drop entries whose lowercase form is not in the allow-list, return
`None` when nothing valid remains, and collapse to `None` when the valid
set equals the whole allow-list. -/
def validateListField (allowed : List String) :
    Option (List String) → Option (List String)
  | none => none
  | some l =>
    if l.isEmpty then none
    else
      let valid := lowerValid allowed l
      if valid.isEmpty then none
      else if sameSet valid allowed then none
      else some valid

/-- `validate_searchIn` from `models.py`. -/
def validate_searchIn (l : Option (List String)) : Option (List String) :=
  validateListField searchInAllowed l

/-- `validate_language_codes` from `models.py`. -/
def validate_language_codes (l : Option (List String)) : Option (List String) :=
  validateListField languagesAllowed l

/-- `validate_country_code` from `models.py`. -/
def validate_country_code (l : Option (List String)) : Option (List String) :=
  validateListField countriesAllowed l

/-- `validate_categories` from `models.py`. -/
def validate_categories (l : Option (List String)) : Option (List String) :=
  validateListField categoriesAllowed l

/-- Split a character list at the dots (helper for the hostname check,
character-based so that the kernel can evaluate it). -/
def splitOnDot : List Char → List (List Char)
  | [] => [[]]
  | c :: r =>
    if c == '.' then [] :: splitOnDot r
    else
      match splitOnDot r with
      | [] => [[c]]
      | l :: ls => (c :: l) :: ls

/-- A well-formed hostname label: non-empty, only ASCII letters, digits or
hyphens, and not starting or ending with a hyphen. -/
def validLabel (l : List Char) : Bool :=
  !l.isEmpty &&
    l.all (fun c => c.isAlphanum || c == '-') &&
    (match l.head? with | some c => !(c == '-') | none => false) &&
    (match l.getLast? with | some c => !(c == '-') | none => false)

/-- Modelled from the spec: the external `validators.domain` hostname check
used by `validate_domains` (the library itself is not part of this
repository). The spec says "validate syntactic well-formedness of each entry
(RFC-compliant hostname)": at least two dot-separated labels, each label
well-formed. -/
def isValidDomain (s : String) : Bool :=
  let labels := splitOnDot s.data
  decide (2 ≤ labels.length) && labels.all validLabel

/-- `validate_domains` from `models.py`: `None` on a falsy input, otherwise
keep the syntactically valid entries. Note that when every entry is invalid
the code logs a warning but still returns the (empty) filtered list, not
`None`. -/
def validate_domains (l : Option (List String)) : Option (List String) :=
  match l with
  | none => none
  | some ds =>
    if ds.isEmpty then none
    else some (ds.filter isValidDomain)

/-- `validate_sortBy` from `models.py`: `None` on a falsy input, `None` when
the value is not exactly one of the allowed (case-sensitive) values, the
value itself otherwise. -/
def validate_sortBy (s : Option String) : Option String :=
  match s with
  | none => none
  | some v =>
    if v == "" then none
    else if sortByAllowed.contains v then some v
    else none

/-! ## `models.py` — API-compliant query classes -/

/-- `EverythingQuery` dataclass (strict mapping to the `/everything`
endpoint). Dates are kept as opaque strings. -/
structure EverythingQuery where
  q : String
  searchIn : Option (List String) := none
  sources : Option (List String) := none
  domains : Option (List String) := none
  excludeDomains : Option (List String) := none
  from_date : Option String := none
  to_date : Option String := none
  language : Option String := none
  sortBy : Option String := none
  pageSize : Option Int := none
  page : Option Int := none
deriving DecidableEq, Repr

/-- Parameter dict produced by `EverythingQuery.to_api_params`. The
`sources`, `searchIn`, `domains` and `excludeDomains` values are kept as the
lists being comma-joined (the join is injective on the entry count, which is
what the constraints talk about). -/
structure EverythingParams where
  q : String
  page : Int
  pageSize : Int
  searchIn : Option (List String) := none
  sources : Option (List String) := none
  domains : Option (List String) := none
  excludeDomains : Option (List String) := none
  from_date : Option String := none
  to_date : Option String := none
  language : Option String := none
  sortBy : Option String := none
deriving DecidableEq, Repr

/-- `EverythingQuery.to_api_params`: `page` defaults to 1 and `pageSize` to
100 on falsy values, `pageSize` is clamped with `min(.., 100)`, `sources` is
cut to its first 20 entries, and falsy optional fields are omitted. -/
def EverythingQuery.to_api_params (eq' : EverythingQuery) : EverythingParams :=
  { q := eq'.q
    page := match eq'.page with
      | some p => if p == 0 then 1 else p
      | none => 1
    pageSize := match eq'.pageSize with
      | some ps => if ps == 0 then 100 else min ps 100
      | none => 100
    searchIn := if truthyList eq'.searchIn then eq'.searchIn else none
    sources := if truthyList eq'.sources then some ((eq'.sources.getD []).take 20) else none
    domains := if truthyList eq'.domains then eq'.domains else none
    excludeDomains := if truthyList eq'.excludeDomains then eq'.excludeDomains else none
    from_date := eq'.from_date
    to_date := eq'.to_date
    language := if truthyStr eq'.language then eq'.language else none
    sortBy := if truthyStr eq'.sortBy then eq'.sortBy else none }

/-- `TopHeadlinesQuery` dataclass (strict mapping to `/top-headlines`). -/
structure TopHeadlinesQuery where
  q : Option String := none
  country : Option String := none
  category : Option String := none
  sources : Option (List String) := none
  pageSize : Int := 100
  page : Int := 1
deriving DecidableEq, Repr

/-- Parameter dict produced by `TopHeadlinesQuery.to_api_params`
(`sources` kept as the list being comma-joined). -/
structure HeadlinesParams where
  page : Int
  pageSize : Int
  q : Option String := none
  sources : Option (List String) := none
  country : Option String := none
  category : Option String := none
deriving DecidableEq, Repr

/-- `TopHeadlinesQuery.to_api_params`: `pageSize` clamped with
`min(.., 100)`, `sources` cut to 20 entries, and `country`/`category` only
added when `sources` is falsy. -/
def TopHeadlinesQuery.to_api_params (hq : TopHeadlinesQuery) : HeadlinesParams :=
  { page := hq.page
    pageSize := min hq.pageSize 100
    q := if truthyStr hq.q then hq.q else none
    sources := if truthyList hq.sources then some ((hq.sources.getD []).take 20) else none
    country := if truthyList hq.sources then none
      else if truthyStr hq.country then hq.country else none
    category := if truthyList hq.sources then none
      else if truthyStr hq.category then hq.category else none }

/-- `SourcesQuery` dataclass (strict mapping to `/sources`). -/
structure SourcesQuery where
  category : Option String := none
  language : Option String := none
  country : Option String := none
deriving DecidableEq, Repr

/-- Parameter dict produced by `SourcesQuery.to_api_params`. -/
structure SourcesParams where
  category : Option String := none
  language : Option String := none
  country : Option String := none
deriving DecidableEq, Repr

/-- `SourcesQuery.to_api_params`: each truthy field is included. -/
def SourcesQuery.to_api_params (sq : SourcesQuery) : SourcesParams :=
  { category := if truthyStr sq.category then sq.category else none
    language := if truthyStr sq.language then sq.language else none
    country := if truthyStr sq.country then sq.country else none }

/-! ## `models.py` — `UserQuery` -/

/-- `UserQuery` dataclass: the user-facing multi-valued query. Dates are
kept as opaque strings (their parsing is out of scope of every claim). -/
structure UserQuery where
  q : Option String := none
  searchIn : Option (List String) := none
  sources : Option (List String) := none
  domains : Option (List String) := none
  excludeDomains : Option (List String) := none
  from_date : Option String := none
  to_date : Option String := none
  sortBy : Option String := none
  languages : Option (List String) := none
  countries : Option (List String) := none
  categories : Option (List String) := none
  pageSize : Int := 100
  max_results : Int := 100
deriving DecidableEq, Repr

/-- `UserQuery.__post_init__`: truncate a truthy query string and run every
field validator. `sources`, `pageSize` and `max_results` are not validated;
the datetime string-to-object conversion is elided (dates stay opaque). -/
def UserQuery.post_init (uq : UserQuery) : UserQuery :=
  { uq with
    q := if truthyStr uq.q then (uq.q.map validate_query_string) else uq.q
    searchIn := validate_searchIn uq.searchIn
    domains := validate_domains uq.domains
    excludeDomains := validate_domains uq.excludeDomains
    languages := validate_language_codes uq.languages
    countries := validate_country_code uq.countries
    categories := validate_categories uq.categories
    sortBy := validate_sortBy uq.sortBy }

/-- `UserQuery.generate_everything_queries`: raise `ValueError` when `q` is
falsy; otherwise one `EverythingQuery` per language (outer, placeholder when
`languages` is falsy) and 20-item source chunk (inner, placeholder when
`sources` is falsy), sharing the non-iterated fields with `page = 1`. -/
def UserQuery.generate_everything_queries (uq : UserQuery) :
    Except String (List EverythingQuery) :=
  if !truthyStr uq.q then
    .error "Query q is required for /everything endpoint"
  else
    let langs : List (Option String) := optIter uq.languages
    let source_chunks : List (Option (List String)) :=
      if truthyList uq.sources then (chunksOf20 (uq.sources.getD [])).map some
      else [none]
    .ok (langs.flatMap (fun lang => source_chunks.map (fun chunk =>
      { q := uq.q.getD ""
        searchIn := uq.searchIn
        sources := chunk
        domains := uq.domains
        excludeDomains := uq.excludeDomains
        from_date := uq.from_date
        to_date := uq.to_date
        language := lang
        sortBy := uq.sortBy
        pageSize := some uq.pageSize
        page := some 1 })))

/-- `UserQuery.generate_headlines_queries`: with truthy `sources`, one query
per 20-item chunk (no country/category); otherwise countries (outer) ×
categories (inner) with placeholders, skipping the combination where
country, category and `q` are all `None` (note: `q is None`, so an empty
string `q` does not skip). -/
def UserQuery.generate_headlines_queries (uq : UserQuery) : List TopHeadlinesQuery :=
  if truthyList uq.sources then
    (chunksOf20 (uq.sources.getD [])).map (fun chunk =>
      { q := uq.q
        sources := some chunk
        pageSize := uq.pageSize
        page := 1 })
  else
    (optIter uq.countries).flatMap (fun country =>
      (optIter uq.categories).filterMap (fun category =>
        if country = none ∧ category = none ∧ uq.q = none then none
        else some
          { q := uq.q
            country := country
            category := category
            pageSize := uq.pageSize
            page := 1 }))

/-- `UserQuery.generate_sources_queries`: `itertools.product` of categories,
languages and countries (placeholders when falsy); the all-`None`
combination yields the unfiltered `SourcesQuery()`. -/
def UserQuery.generate_sources_queries (uq : UserQuery) : List SourcesQuery :=
  (optIter uq.categories).flatMap (fun category =>
    (optIter uq.languages).flatMap (fun language =>
      (optIter uq.countries).map (fun country =>
        if category = none ∧ language = none ∧ country = none then {}
        else { category := category, language := language, country := country })))

/-! ## `news_client.py` — raw records, responses, pagination -/

/-- A raw article record as returned by the provider. The client only reads
its `url` field; the rest of the JSON object is an opaque payload. -/
structure RawArticle where
  url : Option String := none
  payload : String := ""
deriving DecidableEq, Repr

/-- A raw source record as returned by `/sources`; the client only reads its
`id` field. -/
structure RawSource where
  id : Option String := none
  payload : String := ""
deriving DecidableEq, Repr

/-- A parsed JSON page of an article endpoint: `status`, `totalResults`
(`data.get('totalResults', 0)`), `articles` (`data.get('articles', [])`). -/
structure PageResp where
  status : String := "ok"
  totalResults : Int := 0
  articles : List RawArticle := []
deriving DecidableEq, Repr

/-- A parsed JSON response of the `/sources` endpoint. -/
structure SourcesResp where
  status : String := "ok"
  sources : List RawSource := []
deriving DecidableEq, Repr

/-- Result dict of `search_everything` / `search_top_headlines`. -/
structure ArticlesResult where
  status : String
  totalResults : Int
  articles : List RawArticle
deriving DecidableEq, Repr

/-- Result dict of `get_sources`. -/
structure SourcesResult where
  status : String
  sources : List RawSource
deriving DecidableEq, Repr

/-- The inner `while True` pagination loop shared verbatim by
`search_everything` and `search_top_headlines`. `fetch` abstracts
`self.session.get` (`.error` is a raised `requests.RequestException`),
`mkParams` builds the params dict for a page number, `pageSize` is the raw
`api_query.pageSize` used in the stop test, `allCount` is `len(all_articles)`
at loop entry, and `fuel` bounds the iteration count (the Python loop has no
bound; theorems quantify over sufficiently large fuel). Returns the
accumulated `query_articles` and the number of pages requested. -/
def paginateFetch {P : Type} (fetch : P → Except String PageResp)
    (mkParams : Nat → P) (pageSize maxResults : Int) (allCount : Nat) :
    Nat → Nat → List RawArticle → Except String (List RawArticle × Nat)
  | 0, _, acc => .ok (acc, 0)
  | fuel+1, page, acc =>
    match fetch (mkParams page) with
    | .error e => .error e
    | .ok data =>
      if data.status ≠ "ok" then
        .ok (acc, 1)
      else
        if ((data.articles.length : Int) < pageSize ∨
            (((acc ++ data.articles).length : Int) ≥ data.totalResults) ∨
            ((allCount : Int) + ((acc ++ data.articles).length : Int) ≥ maxResults)) then
          .ok (acc ++ data.articles, 1)
        else
          match paginateFetch fetch mkParams pageSize maxResults allCount fuel (page+1)
              (acc ++ data.articles) with
          | .error e => .error e
          | .ok (res, c) => .ok (res, c + 1)

/-- The outer `for api_query in ...generate_everything_queries()` loop of
`search_everything`: paginate each query starting at page 1, extend
`all_articles`, and break once `len(all_articles) >= max_results`. Every
generated query carries `pageSize = some uq.pageSize`, so the `getD 0`
default of the raw page-size read is never exercised. -/
def runEverythingQueries (fetch : EverythingParams → Except String PageResp)
    (maxResults : Int) (fuel : Nat) :
    List EverythingQuery → List RawArticle → Except String (List RawArticle)
  | [], all => .ok all
  | eq' :: rest, all =>
    match paginateFetch fetch
        (fun p => ({ eq' with page := some (p : Int) }).to_api_params)
        (eq'.pageSize.getD 0) maxResults all.length fuel 1 [] with
    | .error e => .error e
    | .ok (queryArticles, _) =>
      let all' := all ++ queryArticles
      if (all'.length : Int) ≥ maxResults then .ok all'
      else runEverythingQueries fetch maxResults fuel rest all'

/-- The outer query loop of `search_top_headlines` (same structure). -/
def runHeadlinesQueries (fetch : HeadlinesParams → Except String PageResp)
    (maxResults : Int) (fuel : Nat) :
    List TopHeadlinesQuery → List RawArticle → Except String (List RawArticle)
  | [], all => .ok all
  | hq :: rest, all =>
    match paginateFetch fetch
        (fun p => ({ hq with page := (p : Int) }).to_api_params)
        hq.pageSize maxResults all.length fuel 1 [] with
    | .error e => .error e
    | .ok (queryArticles, _) =>
      let all' := all ++ queryArticles
      if (all'.length : Int) ≥ maxResults then .ok all'
      else runHeadlinesQueries fetch maxResults fuel rest all'

/-- The query loop of `get_sources`: one request per generated query (no
pagination); a non-ok status skips the query (`continue`), otherwise the
returned sources are accumulated. -/
def runSourcesQueries (fetch : SourcesParams → Except String SourcesResp) :
    List SourcesQuery → List RawSource → Except String (List RawSource)
  | [], all => .ok all
  | sq :: rest, all =>
    match fetch sq.to_api_params with
    | .error e => .error e
    | .ok data =>
      if data.status ≠ "ok" then runSourcesQueries fetch rest all
      else runSourcesQueries fetch rest (all ++ data.sources)

/-- The URL-keyed dedup dict of `search_everything` / `search_top_headlines`. -/
def dedupByUrl (l : List RawArticle) : List RawArticle :=
  dedupByKey (fun a => a.url) l

/-- The id-keyed dedup dict of `get_sources`. -/
def dedupById (l : List RawSource) : List RawSource :=
  dedupByKey (fun s => s.id) l

/-- The merge-and-truncate tail of `search_everything` /
`search_top_headlines`: dedup by URL, then truncate to `max_results`. -/
def mergeArticles (all : List RawArticle) (maxResults : Int) : List RawArticle :=
  pyTruncate (dedupByUrl all) maxResults

/-- `NewsAPIClient.search_everything`. The `try`/`except
requests.RequestException` converts any transport failure of the body into
the uniform error dict; the `ValueError` raised by
`generate_everything_queries` when `q` is missing is not a
`RequestException` and propagates (outer `.error`). -/
def NewsAPIClient.search_everything
    (fetch : EverythingParams → Except String PageResp) (uq : UserQuery)
    (fuel : Nat) : Except String ArticlesResult :=
  match uq.generate_everything_queries with
  | .error e => .error e
  | .ok queries =>
    .ok (match runEverythingQueries fetch uq.max_results fuel queries [] with
      | .error _ => { status := "error", totalResults := 0, articles := [] }
      | .ok all =>
        let finalArticles := mergeArticles all uq.max_results
        { status := "ok"
          totalResults := (finalArticles.length : Int)
          articles := finalArticles })

/-- `NewsAPIClient.search_top_headlines` (its generator cannot raise, so the
result is a plain dict; transport failures give the uniform error dict). -/
def NewsAPIClient.search_top_headlines
    (fetch : HeadlinesParams → Except String PageResp) (uq : UserQuery)
    (fuel : Nat) : ArticlesResult :=
  match runHeadlinesQueries fetch uq.max_results fuel uq.generate_headlines_queries [] with
  | .error _ => { status := "error", totalResults := 0, articles := [] }
  | .ok all =>
    let finalArticles := mergeArticles all uq.max_results
    { status := "ok"
      totalResults := (finalArticles.length : Int)
      articles := finalArticles }

/-- `NewsAPIClient.get_sources`: accumulate across generated queries, dedup
by id, no truncation; transport failures give the uniform error dict. -/
def NewsAPIClient.get_sources
    (fetch : SourcesParams → Except String SourcesResp) (uq : UserQuery) :
    SourcesResult :=
  match runSourcesQueries fetch uq.generate_sources_queries [] with
  | .error _ => { status := "error", sources := [] }
  | .ok all => { status := "ok", sources := dedupById all }

/-! ## `news_agent.py` — tool-dispatch loop -/

/-- A content block of an oracle turn: a text block (has a `.text`
attribute) or a tool invocation. -/
inductive Block where
  | text (s : String)
  | tool_use (id name input : String)
deriving DecidableEq, Repr

/-- One oracle turn: a stop reason and the content blocks. -/
structure Turn where
  stop_reason : String
  content : List Block
deriving DecidableEq, Repr

/-- Content of a conversation message: the user's plain text, an assistant
turn's blocks, or a synthetic list of `(tool_use_id, serialized result)`
tool results. -/
inductive MsgContent where
  | text (s : String)
  | blocks (bs : List Block)
  | toolResults (rs : List (String × String))
deriving DecidableEq, Repr

/-- A conversation message (`role` + `content`). -/
structure Message where
  role : String
  content : MsgContent
deriving DecidableEq, Repr

/-- Python whitespace characters stripped by `str.strip()` (the ASCII ones;
the identifiers and texts in scope contain no exotic whitespace). -/
def isWsChar (c : Char) : Bool :=
  c == ' ' || c == '\t' || c == '\n' || c == '\r' || c == '\x0b' || c == '\x0c'

/-- Drop leading whitespace characters. -/
def dropWsLeft : List Char → List Char
  | [] => []
  | c :: r => if isWsChar c then dropWsLeft r else c :: r

/-- Python `str.strip()`. -/
def pyStrip (s : String) : String :=
  String.mk (dropWsLeft (dropWsLeft s.data.reverse).reverse)

/-- The `response_text` accumulation of `process_request`: concatenate the
`.text` of every text block of the turn, in order. -/
def responseText (content : List Block) : String :=
  content.foldl (fun acc b => match b with
    | .text s => acc ++ s
    | .tool_use _ _ _ => acc) ""

/-- The tool-result list built for a `tool_use` turn: one
`(tool_use_id, serialized result)` pair per tool invocation, where `tools`
abstracts `_execute_tool` composed with `json.dumps`. -/
def toolResultsOf (tools : String → String → String) (content : List Block) :
    List (String × String) :=
  content.filterMap (fun b => match b with
    | .tool_use id name input => some (id, tools name input)
    | .text _ => none)

/-- What `process_request` hands back when it returns at an `end_turn`:
the joined final response, the intermediate responses, the messages as they
were when the final turn arrived, and the final turn's content (appended to
the conversation only when a session id is present). -/
structure LoopOut where
  final_response : String
  intermediate : List String
  messages : List Message
  finalContent : List Block
deriving DecidableEq, Repr

/-- The `while True` dispatch loop of `NewsAgent.process_request`. The
oracle is a stream of turns consumed one per `messages.create` call;
an exhausted stream (`[]`) models a run that has not yet terminated.
Each iteration: collect the turn's text (appending it to the intermediate
responses when non-blank), then branch on `stop_reason` — `"tool_use"`
appends the assistant turn plus a tool-result user turn and loops,
`"end_turn"` returns, and anything else loops with the messages unchanged. -/
def processLoop (tools : String → String → String) :
    List Turn → List Message → List String → Option LoopOut
  | [], _, _ => none
  | turn :: rest, messages, inter =>
    let response_text := responseText turn.content
    let inter' := if pyStrip response_text ≠ "" then inter ++ [response_text] else inter
    if turn.stop_reason = "tool_use" then
      processLoop tools rest
        (messages ++
          [{ role := "assistant", content := .blocks turn.content },
           { role := "user", content := .toolResults (toolResultsOf tools turn.content) }])
        inter'
    else if turn.stop_reason = "end_turn" then
      some { final_response :=
               if inter'.isEmpty then "" else String.intercalate "\n\n" inter'
             intermediate := inter'
             messages := messages
             finalContent := turn.content }
    else
      processLoop tools rest messages inter'

/-- `self.conversation_history.get(session_id, [])`. -/
def lookupHistory (history : List (String × List Message)) (sid : String) :
    List Message :=
  match history.find? (fun e => e.1 == sid) with
  | some e => e.2
  | none => []

/-- `self.conversation_history[session_id] = messages`. The dict update is
modelled as a shadowing cons: `lookupHistory` reads the most recent binding
of a key, which matches dict read semantics. -/
def setHistory (history : List (String × List Message)) (sid : String)
    (msgs : List Message) : List (String × List Message) :=
  (sid, msgs) :: history

/-- The value returned by `process_request`. -/
structure ProcResult where
  response : String
  intermediate_responses : List String
  messages : List Message
deriving DecidableEq, Repr

/-- `NewsAgent.process_request`: seed the conversation (from the session
history when a session id is supplied), run the dispatch loop, and on
`end_turn` append the final assistant turn to the conversation and persist
it — both only when a session id is present (the Python `messages.append`
mutates the list before it is returned, so the returned `messages` includes
the final turn exactly when `session_id` is set). Returns the result
together with the updated history map. -/
def NewsAgent.process_request (tools : String → String → String)
    (turns : List Turn) (history : List (String × List Message))
    (user_prompt : String) (session_id : Option String) :
    Option (ProcResult × List (String × List Message)) :=
  let messages : List Message :=
    match session_id with
    | some sid => lookupHistory history sid ++ [{ role := "user", content := .text user_prompt }]
    | none => [{ role := "user", content := .text user_prompt }]
  match processLoop tools turns messages [] with
  | none => none
  | some out =>
    match session_id with
    | some sid =>
      let finalMessages := out.messages ++
        [{ role := "assistant", content := .blocks out.finalContent }]
      some ({ response := out.final_response
              intermediate_responses := out.intermediate
              messages := finalMessages },
            setHistory history sid finalMessages)
    | none =>
      some ({ response := out.final_response
              intermediate_responses := out.intermediate
              messages := out.messages },
            history)

/-! ## Spec-side (claim-worded) definitions -/

/-- Stated from claim C2: the expansion for the search endpoint is "exactly
one `EverythingQuery` per pair (language, 20-item source chunk) — using a
single placeholder when `languages` is `None` or `sources` is empty —
iterating languages outer and chunks inner, each request carrying the shared
query string, searchIn, domains, excludeDomains, dates and sortBy, with page
initialized to 1", phrased as a map over a cartesian product. -/
def everythingQueriesSpec (uq : UserQuery) : List EverythingQuery :=
  let langs : List (Option String) := optIter uq.languages
  let source_chunks : List (Option (List String)) :=
    if truthyList uq.sources then (chunksOf20 (uq.sources.getD [])).map some
    else [none]
  (cartProd langs source_chunks).map (fun lc =>
    { q := uq.q.getD ""
      searchIn := uq.searchIn
      sources := lc.2
      domains := uq.domains
      excludeDomains := uq.excludeDomains
      from_date := uq.from_date
      to_date := uq.to_date
      language := lc.1
      sortBy := uq.sortBy
      pageSize := some uq.pageSize
      page := some 1 })

/-- Stated from claim C3: with sources present, one request per ≤20-item
chunk with country and category unset; otherwise the cartesian product of
countries (outer) and categories (inner) with placeholders, skipping exactly
the combination where country, category and the query string are all
absent. -/
def headlinesQueriesSpec (uq : UserQuery) : List TopHeadlinesQuery :=
  if truthyList uq.sources then
    (chunksOf20 (uq.sources.getD [])).map (fun chunk =>
      { q := uq.q
        country := none
        category := none
        sources := some chunk
        pageSize := uq.pageSize
        page := 1 })
  else
    ((cartProd (optIter uq.countries) (optIter uq.categories)).filter
        (fun cc => !(cc.1 = none ∧ cc.2 = none ∧ uq.q = none : Bool))).map
      (fun cc =>
        { q := uq.q
          country := cc.1
          category := cc.2
          sources := none
          pageSize := uq.pageSize
          page := 1 })

/-- The articles accumulated by the pagination loop after pages `1..n`:
concatenation of the article lists of those pages. -/
def accUpTo (pages : Nat → PageResp) : Nat → List RawArticle
  | 0 => []
  | n+1 => accUpTo pages n ++ (pages (n+1)).articles

/-- Stated from claim C4: the three conditions that must all hold after
page `n` for page `n+1` to be requested — the page returned exactly
`pageSize` records, the records accumulated for this query are still fewer
than the provider-reported `totalResults`, and the combined count across all
queries so far is still below `max_results`. -/
def contClaim (pages : Nat → PageResp) (pageSize maxResults : Int)
    (allCount : Nat) (n : Nat) : Prop :=
  ((pages n).articles.length : Int) = pageSize ∧
  ((accUpTo pages n).length : Int) < (pages n).totalResults ∧
  ((allCount : Int) + ((accUpTo pages n).length : Int)) < maxResults

/-- The stop test of the pagination loop at page `n`, on the accumulated
state reached from page 1 (used to characterize the loop). -/
def codeStop (pages : Nat → PageResp) (pageSize maxResults : Int)
    (allCount : Nat) (n : Nat) : Prop :=
  ((pages n).articles.length : Int) < pageSize ∨
  (((accUpTo pages n).length : Int) ≥ (pages n).totalResults) ∨
  (((allCount : Int) + ((accUpTo pages n).length : Int)) ≥ maxResults)

instance (pages : Nat → PageResp) (ps mr : Int) (ac n : Nat) :
    Decidable (codeStop pages ps mr ac n) := by
  unfold codeStop; infer_instance

/-- Number of pages the loop requests when started at `page` with the given
fuel, assuming every fetch succeeds with an ok status (closed form of
`paginateFetch`'s page count). -/
def loopCount (pages : Nat → PageResp) (pageSize maxResults : Int)
    (allCount : Nat) : Nat → Nat → Nat
  | 0, _ => 0
  | fuel+1, page =>
    if codeStop pages pageSize maxResults allCount page then 1
    else loopCount pages pageSize maxResults allCount fuel (page+1) + 1

/-! ## General lemmas -/

theorem optCount_le_one {α : Type} (o : Option α) : optCount o ≤ 1 := by
  cases o <;> simp [optCount]

theorem cartProd_map {α β γ : Type} (l₁ : List α) (l₂ : List β) (f : α × β → γ) :
    (cartProd l₁ l₂).map f = l₁.flatMap (fun a => l₂.map (fun b => f (a, b))) := by
  induction l₁ with
  | nil => rfl
  | cons a l ih =>
    simp only [cartProd, List.flatMap_cons, List.map_append, List.map_map] at *
    rw [ih]
    rfl

theorem map_filter_not_map {α γ : Type} {β : Type} (a : α) (l₂ : List β)
    (P : α × β → Prop) [DecidablePred P] (f : α × β → γ) :
    ((l₂.map (fun b => (a, b))).filter (fun x => !decide (P x))).map f
      = l₂.filterMap (fun b => if P (a, b) then none else some (f (a, b))) := by
  induction l₂ with
  | nil => rfl
  | cons b bs ih =>
    by_cases h : P (a, b) <;>
      simp [List.filter_cons, List.filterMap_cons, h, ih]

theorem cartProd_filter_map {α β γ : Type} (l₁ : List α) (l₂ : List β)
    (P : α × β → Prop) [DecidablePred P] (f : α × β → γ) :
    ((cartProd l₁ l₂).filter (fun x => !decide (P x))).map f
      = l₁.flatMap (fun a => l₂.filterMap (fun b => if P (a, b) then none else some (f (a, b)))) := by
  induction l₁ with
  | nil => rfl
  | cons a l ih =>
    simp only [cartProd, List.flatMap_cons, List.filter_append, List.map_append] at *
    rw [ih, map_filter_not_map]

/-! ## C1 — every generated request is API-legal -/

theorem everything_params_bounds (q' : EverythingQuery) :
    (q'.to_api_params.sources.getD []).length ≤ 20 ∧
      q'.to_api_params.pageSize ≤ 100 := by
  constructor
  · simp only [EverythingQuery.to_api_params]
    split
    · simp [List.length_take_le]
    · simp
  · simp only [EverythingQuery.to_api_params]
    cases hps : q'.pageSize with
    | none => simp
    | some ps =>
      by_cases h0 : ps == 0 <;> simp [h0, min_le_right]

theorem headlines_params_bounds (hq : TopHeadlinesQuery) :
    (hq.to_api_params.sources.getD []).length ≤ 20 ∧
      hq.to_api_params.pageSize ≤ 100 := by
  constructor
  · simp only [TopHeadlinesQuery.to_api_params]
    split
    · simp [List.length_take_le]
    · simp
  · simp only [TopHeadlinesQuery.to_api_params]
    exact min_le_right _ _

/-- C1 — For every `UserQuery`, every API request produced by
`generate_everything_queries`, `generate_headlines_queries` or
`generate_sources_queries` yields, via its `to_api_params` mapping, a
provider-legal parameter set: at most 20 entries in `sources`, `pageSize`
at most 100, and at most one value each for `language`, `country` and
`category`. -/
theorem c1_generated_requests_api_legal (uq : UserQuery) :
    (∀ l, uq.generate_everything_queries = Except.ok l →
      ∀ q' ∈ l, (q'.to_api_params.sources.getD []).length ≤ 20 ∧
        q'.to_api_params.pageSize ≤ 100 ∧
        optCount q'.to_api_params.language ≤ 1)
    ∧ (∀ q' ∈ uq.generate_headlines_queries,
        (q'.to_api_params.sources.getD []).length ≤ 20 ∧
        q'.to_api_params.pageSize ≤ 100 ∧
        optCount q'.to_api_params.country ≤ 1 ∧
        optCount q'.to_api_params.category ≤ 1)
    ∧ (∀ q' ∈ uq.generate_sources_queries,
        optCount q'.to_api_params.language ≤ 1 ∧
        optCount q'.to_api_params.country ≤ 1 ∧
        optCount q'.to_api_params.category ≤ 1) := by
  refine ⟨?_, ?_, ?_⟩
  · intro l _ q' _
    exact ⟨(everything_params_bounds q').1, (everything_params_bounds q').2,
      optCount_le_one _⟩
  · intro q' _
    exact ⟨(headlines_params_bounds q').1, (headlines_params_bounds q').2,
      optCount_le_one _, optCount_le_one _⟩
  · intro q' _
    exact ⟨optCount_le_one _, optCount_le_one _, optCount_le_one _⟩

/-- Concrete `UserQuery` used by the C1 witness. -/
def c1Uq : UserQuery := { q := some "x" }

/-- The single search request `c1Uq` expands to. -/
def c1Query : EverythingQuery := { q := "x", pageSize := some 100, page := some 1 }

/-- Witness for C1 at a concrete query. -/
theorem c1_generated_requests_api_legal_witness :
    (c1Query.to_api_params.sources.getD []).length ≤ 20 ∧
      c1Query.to_api_params.pageSize ≤ 100 ∧
      optCount c1Query.to_api_params.language ≤ 1 :=
  (c1_generated_requests_api_legal c1Uq).1 [c1Query] rfl c1Query (by decide)

/-! ## C2 — search expansion -/

/-- The 21 distinct source ids of the C2 scenario. -/
def sources21 : List String :=
  ["s01", "s02", "s03", "s04", "s05", "s06", "s07", "s08", "s09", "s10",
   "s11", "s12", "s13", "s14", "s15", "s16", "s17", "s18", "s19", "s20", "s21"]

/-- The scenario query of C2: `UserQuery(q="climate", sources=[21 ids])`. -/
def c2Uq : UserQuery :=
  UserQuery.post_init { q := some "climate", sources := some sources21 }

/-- C2 — `generate_everything_queries` fails whenever the `UserQuery` has no
query string, and otherwise emits exactly one `EverythingQuery` per
(language, 20-item source chunk) pair, languages outer and chunks inner,
with placeholders for missing lists, the shared fields copied and page
initialized to 1 (the equation against the claim-worded
`everythingQueriesSpec`); in particular a query string plus 21 distinct
sources and no languages yields exactly 2 requests carrying 20 and 1
sources. -/
theorem c2_everything_expansion :
    (∀ uq : UserQuery,
      uq.generate_everything_queries =
        (if truthyStr uq.q then Except.ok (everythingQueriesSpec uq)
         else Except.error "Query q is required for /everything endpoint"))
    ∧ (c2Uq.generate_everything_queries.map
        (fun l => l.map (fun q' => (q'.sources.getD []).length))
        = Except.ok [20, 1]) := by
  constructor
  · intro uq
    by_cases ht : truthyStr uq.q
    · simp only [UserQuery.generate_everything_queries, ht, Bool.not_true,
        Bool.false_eq_true, if_false, if_true]
      rw [everythingQueriesSpec, cartProd_map]
    · simp [UserQuery.generate_everything_queries, ht]
  · rfl

/-! ## C3 — headlines expansion -/

/-- The scenario query of C3:
`UserQuery(countries=["us","gb"], categories=["technology"])`. -/
def c3Uq : UserQuery :=
  UserQuery.post_init
    { countries := some ["us", "gb"], categories := some ["technology"] }

/-- C3 — `generate_headlines_queries` emits one query per ≤20-item source
chunk (country and category unset) when sources are present, and otherwise
one query per (country, category) pair of the cartesian product, countries
outer and categories inner, skipping exactly the combination where country,
category and the query string are all absent (the equation against the
claim-worded `headlinesQueriesSpec`); in particular
countries=["us","gb"], categories=["technology"] and no sources yields
exactly (us, technology) then (gb, technology). -/
theorem c3_headlines_expansion :
    (∀ uq : UserQuery, uq.generate_headlines_queries = headlinesQueriesSpec uq)
    ∧ (c3Uq.generate_headlines_queries =
        [{ q := none, country := some "us", category := some "technology",
           sources := none, pageSize := 100, page := 1 },
         { q := none, country := some "gb", category := some "technology",
           sources := none, pageSize := 100, page := 1 }]) := by
  constructor
  · intro uq
    by_cases hs : truthyList uq.sources
    · simp [UserQuery.generate_headlines_queries, headlinesQueriesSpec, hs]
    · simp only [UserQuery.generate_headlines_queries, headlinesQueriesSpec,
        hs, Bool.false_eq_true, if_false]
      rw [cartProd_filter_map]
  · decide

/-! ## C6 / C7 — validator lemmas -/

theorem lowerValid_mem {allowed l : List String} {x : String}
    (h : x ∈ lowerValid allowed l) :
    x ∈ allowed ∧ ∃ y ∈ l, strLower y = x := by
  simp only [lowerValid, List.mem_map, List.mem_filter] at h
  obtain ⟨y, ⟨hyl, hyc⟩, hyx⟩ := h
  refine ⟨?_, y, hyl, hyx⟩
  rw [← hyx]
  exact List.elem_iff.mp hyc

theorem validateListField_some {allowed l out : List String}
    (h : validateListField allowed (some l) = some out) :
    out = lowerValid allowed l ∧ out ≠ [] := by
  simp only [validateListField] at h
  split at h
  · exact absurd h (by simp)
  · split at h
    · exact absurd h (by simp)
    · split at h
      · exact absurd h (by simp)
      · rename_i hne _
        cases h
        exact ⟨rfl, by simpa [List.isEmpty_iff] using hne⟩

theorem validateListField_none_of_empty {allowed l : List String}
    (h : lowerValid allowed l = []) :
    validateListField allowed (some l) = none := by
  simp only [validateListField]
  split
  · rfl
  · simp [h]

theorem validateListField_none_of_cover {allowed l : List String}
    (hA : allowed ≠ []) (h : ∀ a ∈ allowed, a ∈ lowerValid allowed l) :
    validateListField allowed (some l) = none := by
  simp only [validateListField]
  split
  · rfl
  · have hsub : ∀ x ∈ lowerValid allowed l, x ∈ allowed :=
      fun x hx => (lowerValid_mem hx).1
    have hvne : ¬ (lowerValid allowed l).isEmpty = true := by
      obtain ⟨a, ha⟩ := List.exists_mem_of_ne_nil allowed hA
      have hmem := h a ha
      simp only [List.isEmpty_iff]
      intro hnil
      rw [hnil] at hmem
      exact absurd hmem (List.not_mem_nil a)
    have hss : sameSet (lowerValid allowed l) allowed = true := by
      simp only [sameSet, Bool.and_eq_true, List.all_eq_true]
      exact ⟨fun x hx => List.elem_iff.mpr (hsub x hx),
        fun a ha => List.elem_iff.mpr (h a ha)⟩
    simp [hvne, hss]

/-! ## C6 — enumerated-field validators (corrected: `validate_sortBy` is
case-sensitive) -/

/-- C6 counterexample — the claim says every enumerated-field validator,
`validate_sortBy` included, matches case-insensitively and only drops
non-matching entries; but `"PublishedAt"` matches the allow-list entry
`"publishedAt"` up to case and is nevertheless dropped (result `none`),
while the exact-case spelling is kept: `validate_sortBy` is
case-sensitive. -/
theorem c6_validators_counterexample :
    validate_sortBy (some "PublishedAt") = none ∧
      validate_sortBy (some "publishedAt") = some "publishedAt" ∧
      strLower "PublishedAt" = strLower "publishedAt" := by
  refine ⟨by decide, by decide, by decide⟩

/-- C6 amended — the four list validators (`validate_searchIn`,
`validate_language_codes`, `validate_country_code`, `validate_categories`,
all instances of `validateListField` with their allow-lists) match
case-insensitively, drop non-matching entries without raising, return
`none` when no valid entry remains and when the valid set covers the whole
allow-list; `validate_sortBy` instead matches its allow-list
case-sensitively, returning the value unchanged on a hit and `none`
otherwise; in particular supplying all 14 allowed language codes yields
`languages = none` after `UserQuery` construction. -/
theorem c6_validators_amended :
    (∀ A ∈ [searchInAllowed, languagesAllowed, countriesAllowed, categoriesAllowed],
      ∀ l : List String,
        (∀ out, validateListField A (some l) = some out →
          out = lowerValid A l ∧ out ≠ [] ∧ ∀ x ∈ out, x ∈ A)
        ∧ (lowerValid A l = [] → validateListField A (some l) = none)
        ∧ ((∀ a ∈ A, a ∈ lowerValid A l) → validateListField A (some l) = none))
    ∧ (∀ s out, validate_sortBy (some s) = some out → out = s ∧ s ∈ sortByAllowed)
    ∧ (∀ s, s ∉ sortByAllowed → validate_sortBy (some s) = none)
    ∧ (UserQuery.post_init { languages := some languagesAllowed }).languages = none := by
  refine ⟨?_, ?_, ?_, by decide⟩
  · intro A hA l
    refine ⟨?_, validateListField_none_of_empty, ?_⟩
    · intro out hout
      obtain ⟨ho, hne⟩ := validateListField_some hout
      exact ⟨ho, hne, fun x hx => (lowerValid_mem (ho ▸ hx)).1⟩
    · intro hcov
      have hAne : A ≠ [] := by
        fin_cases hA <;> decide
      exact validateListField_none_of_cover hAne hcov
  · intro s out h
    simp only [validate_sortBy] at h
    split at h
    · exact absurd h (by simp)
    · split at h
      · cases h
        rename_i hmem
        exact ⟨rfl, List.elem_iff.mp hmem⟩
      · exact absurd h (by simp)
  · intro s hs
    simp only [validate_sortBy]
    split
    · rfl
    · rw [if_neg]
      intro hc
      exact hs (List.elem_iff.mp hc)

/-- Witness for C6 at concrete inputs: the languages validator keeps a
mixed-case valid entry and drops an invalid one; an entirely invalid list
collapses to `none`; a full-cover input collapses to `none`. -/
theorem c6_validators_amended_witness :
    (["EN", "xx"].filter (fun s => languagesAllowed.contains (strLower s))).map strLower
        = ["en"] ∧
      validate_language_codes (some ["EN", "xx"]) = some ["en"] ∧
      validate_language_codes (some ["xx"]) = none ∧
      validate_sortBy (some "popularity") = some "popularity" := by
  have h1 := (c6_validators_amended.1 languagesAllowed (by decide) ["EN", "xx"]).1
    ["en"] (by decide)
  have h2 := (c6_validators_amended.1 languagesAllowed (by decide) ["xx"]).2.1
    (by decide)
  have h3 := c6_validators_amended.2.1 "popularity" "popularity" (by decide)
  refine ⟨by decide, ?_, ?_, by decide⟩
  · have : ["en"] = lowerValid languagesAllowed ["EN", "xx"] := h1.1
    decide
  · exact h2

/-! ## C7 — post-construction invariant (corrected: duplicates survive,
all-invalid domain lists become `some []`, `sources` is unvalidated) -/

/-- C7 counterexample — the claimed invariant fails: a duplicated valid
language survives `__post_init__` as a duplicate-containing list; a domain
list whose entries are all invalid becomes the empty list `some []` rather
than `None`; an explicitly empty `sources` list is passed through
untouched. -/
theorem c7_post_init_counterexample :
    (UserQuery.post_init { languages := some ["en", "en"] }).languages
        = some ["en", "en"] ∧
      ¬ (["en", "en"] : List String).Nodup ∧
      (UserQuery.post_init { domains := some ["not a domain"] }).domains
        = some [] ∧
      (UserQuery.post_init { sources := some [] }).sources = some [] := by
  refine ⟨by decide, by decide, by decide, by decide⟩

/-- C7 amended — after `UserQuery.__post_init__`, `searchIn`, `languages`,
`countries` and `categories` are each either `None` or a non-empty list of
allow-list members (possibly containing duplicates when the input repeated
an entry); `domains` and `excludeDomains` are either `None` or a (possibly
empty) list of syntactically valid hostnames; `sources` is passed through
unvalidated. -/
theorem c7_post_init_invariant_amended (uq : UserQuery) :
    (∀ l, (UserQuery.post_init uq).searchIn = some l →
      l ≠ [] ∧ ∀ x ∈ l, x ∈ searchInAllowed)
    ∧ (∀ l, (UserQuery.post_init uq).languages = some l →
      l ≠ [] ∧ ∀ x ∈ l, x ∈ languagesAllowed)
    ∧ (∀ l, (UserQuery.post_init uq).countries = some l →
      l ≠ [] ∧ ∀ x ∈ l, x ∈ countriesAllowed)
    ∧ (∀ l, (UserQuery.post_init uq).categories = some l →
      l ≠ [] ∧ ∀ x ∈ l, x ∈ categoriesAllowed)
    ∧ (∀ l, (UserQuery.post_init uq).domains = some l →
      ∀ x ∈ l, isValidDomain x = true)
    ∧ (∀ l, (UserQuery.post_init uq).excludeDomains = some l →
      ∀ x ∈ l, isValidDomain x = true)
    ∧ (UserQuery.post_init uq).sources = uq.sources := by
  have hfield : ∀ (A : List String) (o : Option (List String)) (l : List String),
      validateListField A o = some l → l ≠ [] ∧ ∀ x ∈ l, x ∈ A := by
    intro A o l h
    cases o with
    | none => exact absurd h (by simp [validateListField])
    | some l0 =>
      obtain ⟨ho, hne⟩ := validateListField_some h
      exact ⟨hne, fun x hx => (lowerValid_mem (ho ▸ hx)).1⟩
  have hdom : ∀ (o : Option (List String)) (l : List String),
      validate_domains o = some l → ∀ x ∈ l, isValidDomain x = true := by
    intro o l h x hx
    cases o with
    | none => exact absurd h (by simp [validate_domains])
    | some ds =>
      simp only [validate_domains] at h
      split at h
      · exact absurd h (by simp)
      · cases h
        exact (List.mem_filter.mp hx).2
  refine ⟨fun l h => hfield _ _ l h, fun l h => hfield _ _ l h,
    fun l h => hfield _ _ l h, fun l h => hfield _ _ l h,
    fun l h => hdom _ l h, fun l h => hdom _ l h, rfl⟩

/-- Witness for C7 at a concrete `UserQuery` (mixed-case valid and invalid
entries in several fields). -/
theorem c7_post_init_invariant_amended_witness :
    ((["Title", "body"].filter
        (fun s => searchInAllowed.contains (strLower s))).map strLower ≠ []
      ∧ ∀ x ∈ (["Title", "body"].filter
          (fun s => searchInAllowed.contains (strLower s))).map strLower,
        x ∈ searchInAllowed)
    ∧ ∀ x ∈ ["bbc.co.uk"], isValidDomain x = true := by
  constructor
  · exact (c7_post_init_invariant_amended
      { searchIn := some ["Title", "body"] }).1 ["title"] (by decide)
  · exact (c7_post_init_invariant_amended
      { domains := some ["bbc.co.uk", "bad domain"] }).2.2.2.2.1 ["bbc.co.uk"]
      (by decide)

/-! ## C4 — pagination stop conditions -/

theorem loopCount_pos (pages : Nat → PageResp) (ps mr : Int) (ac : Nat) :
    ∀ fuel page, 1 ≤ fuel → 1 ≤ loopCount pages ps mr ac fuel page := by
  intro fuel page hf
  cases fuel with
  | zero => omega
  | succ f =>
    rw [loopCount]
    split <;> omega

theorem paginate_closed_form {P : Type} (fetch : P → Except String PageResp)
    (mkParams : Nat → P) (pages : Nat → PageResp) (ps mr : Int) (ac : Nat)
    (h1 : ∀ n, fetch (mkParams n) = Except.ok (pages n))
    (h2 : ∀ n, (pages n).status = "ok") :
    ∀ fuel k,
      paginateFetch fetch mkParams ps mr ac fuel (k+1) (accUpTo pages k)
        = Except.ok (accUpTo pages (k + loopCount pages ps mr ac fuel (k+1)),
            loopCount pages ps mr ac fuel (k+1)) := by
  intro fuel
  induction fuel with
  | zero =>
    intro k
    simp [paginateFetch, loopCount]
  | succ f ih =>
    intro k
    have hacc : accUpTo pages k ++ (pages (k+1)).articles = accUpTo pages (k+1) := rfl
    simp only [paginateFetch, h1 (k+1), h2 (k+1), hacc, ne_eq, not_true_eq_false,
      if_false]
    by_cases hstop : codeStop pages ps mr ac (k+1)
    · rw [if_pos (by simpa [codeStop] using hstop)]
      rw [loopCount, if_pos hstop]
    · rw [if_neg (by simpa [codeStop] using hstop)]
      rw [ih (k+1)]
      rw [loopCount, if_neg hstop]
      have harith : (k+1) + loopCount pages ps mr ac f (k+2)
          = k + (loopCount pages ps mr ac f (k+2) + 1) := by omega
      rw [harith]

theorem loopCount_succ_iff (pages : Nat → PageResp) (ps mr : Int) (ac : Nat) :
    ∀ d fuel s, d + 2 ≤ fuel →
      (d + 2 ≤ loopCount pages ps mr ac fuel s ↔
        (d + 1 ≤ loopCount pages ps mr ac fuel s ∧
          ¬ codeStop pages ps mr ac (s + d))) := by
  intro d
  induction d with
  | zero =>
    intro fuel s hf
    cases fuel with
    | zero => omega
    | succ f =>
      rw [loopCount]
      by_cases hstop : codeStop pages ps mr ac s
      · simp [hstop]
      · have hpos := loopCount_pos pages ps mr ac f (s+1) (by omega)
        simp [hstop]
        omega
  | succ d ihd =>
    intro fuel s hf
    cases fuel with
    | zero => omega
    | succ f =>
      rw [loopCount]
      by_cases hstop : codeStop pages ps mr ac s
      · have hl : ¬ (d + 1 + 2 ≤ 1) := by omega
        have hr : ¬ (d + 1 + 1 ≤ 1) := by omega
        simp [hstop, hl, hr]
      · rw [if_neg hstop]
        have ih := ihd f (s+1) (by omega)
        have hrw : (s+1) + d = s + (d+1) := by omega
        rw [hrw] at ih
        constructor
        · intro h
          have hle : d + 2 ≤ loopCount pages ps mr ac f (s+1) := by omega
          obtain ⟨ha, hb⟩ := ih.mp hle
          exact ⟨by omega, hb⟩
        · rintro ⟨ha, hb⟩
          have hle : d + 1 ≤ loopCount pages ps mr ac f (s+1) := by omega
          have := ih.mpr ⟨hle, hb⟩
          omega

theorem contClaim_iff_not_stop (pages : Nat → PageResp) (ps mr : Int)
    (ac n : Nat) (h3 : ((pages n).articles.length : Int) ≤ ps) :
    contClaim pages ps mr ac n ↔ ¬ codeStop pages ps mr ac n := by
  unfold contClaim codeStop
  omega

/-- C4 — in the pagination loop shared by `search_everything` and
`search_top_headlines` (all fetches succeeding with ok status, and no page
carrying more articles than `pageSize`), page `p+1` is requested if and only
if page `p` was requested and all three conditions of `contClaim` hold after
page `p`: the page returned exactly `pageSize` records, the records
accumulated for this query are still fewer than the provider-reported
`totalResults`, and the combined count across queries is still below
`max_results`; consequently a first page returning fewer records than
`pageSize` ends pagination after one page even when the provider-reported
total is larger. -/
theorem c4_pagination_stop_conditions {P : Type}
    (fetch : P → Except String PageResp) (mkParams : Nat → P)
    (pages : Nat → PageResp) (ps mr : Int) (ac : Nat)
    (h1 : ∀ n, fetch (mkParams n) = Except.ok (pages n))
    (h2 : ∀ n, (pages n).status = "ok")
    (h3 : ∀ n, ((pages n).articles.length : Int) ≤ ps) :
    (∀ fuel res p, 1 ≤ p → p + 1 ≤ fuel →
      paginateFetch fetch mkParams ps mr ac fuel 1 [] = Except.ok res →
      (p + 1 ≤ res.2 ↔ (p ≤ res.2 ∧ contClaim pages ps mr ac p)))
    ∧ (∀ fuel res, 1 ≤ fuel →
      ((pages 1).articles.length : Int) < ps →
      ((pages 1).articles.length : Int) < (pages 1).totalResults →
      paginateFetch fetch mkParams ps mr ac fuel 1 [] = Except.ok res →
      res.2 = 1) := by
  constructor
  · intro fuel res p hp hf hres
    have hM := paginate_closed_form fetch mkParams pages ps mr ac h1 h2 fuel 0
    have hacc0 : accUpTo pages 0 = ([] : List RawArticle) := rfl
    simp only [Nat.zero_add, hacc0] at hM
    rw [hres] at hM
    have hres2 := Except.ok.inj hM
    obtain ⟨d, rfl⟩ : ∃ d, p = d + 1 := ⟨p - 1, by omega⟩
    have hQ := loopCount_succ_iff pages ps mr ac d fuel 1 (by omega)
    have h1d : 1 + d = d + 1 := by omega
    rw [h1d] at hQ
    have hcc := contClaim_iff_not_stop pages ps mr ac (d+1) (h3 (d+1))
    rw [hres2, hcc]
    exact hQ
  · intro fuel res hf hlt _ hres
    cases fuel with
    | zero => omega
    | succ f =>
      have hM := paginate_closed_form fetch mkParams pages ps mr ac h1 h2 (f+1) 0
      have hacc0 : accUpTo pages 0 = ([] : List RawArticle) := rfl
      simp only [Nat.zero_add, hacc0] at hM
      rw [hres] at hM
      have hres2 := Except.ok.inj hM
      have hstop : codeStop pages ps mr ac 1 := Or.inl hlt
      rw [hres2]
      simp only [loopCount, if_pos hstop]

/-- Constant provider behavior used by the C4 witness: every page carries
one article and reports a total of 5. -/
def c4Pages : Nat → PageResp :=
  fun _ => { status := "ok", totalResults := 5,
             articles := [{ url := some "u", payload := "" }] }

/-- Witness for C4 at a concrete short first page (1 article, page size
100): page 2 is requested iff page 1 was and the claim conditions hold —
here both sides are false since the page did not return a full page. -/
theorem c4_pagination_stop_conditions_witness :
    (1 + 1 ≤ ((([{ url := some "u", payload := "" }] : List RawArticle), 1).2)
      ↔ (1 ≤ ((([{ url := some "u", payload := "" }] : List RawArticle), 1).2)
          ∧ contClaim c4Pages 100 100 0 1)) :=
  (c4_pagination_stop_conditions (fun _ : Unit => Except.ok (c4Pages 0))
    (fun _ => ()) c4Pages 100 100 0 (fun _ => rfl) (fun _ => rfl)
    (fun _ => by unfold c4Pages; decide)).1 3
    ([{ url := some "u", payload := "" }], 1) 1 (by decide) (by decide) rfl

/-! ## C5 — merger lemmas -/

theorem dedupAux_sublist {α : Type} (key : α → Option String) :
    ∀ (l : List α) (seen : List String), (dedupAux key seen l).Sublist l := by
  intro l
  induction l with
  | nil => intro seen; simp [dedupAux]
  | cons b rest ih =>
    intro seen
    simp only [dedupAux]
    split
    · split
      · exact (ih _).cons₂ b
      · exact (ih _).cons b
    · exact (ih _).cons b

theorem dedupAux_mem_key {α : Type} (key : α → Option String) :
    ∀ (l : List α) (seen : List String) (a : α), a ∈ dedupAux key seen l →
      ∃ u, key a = some u ∧ u ≠ "" := by
  intro l
  induction l with
  | nil => intro seen a h; simp [dedupAux] at h
  | cons b rest ih =>
    intro seen a h
    simp only [dedupAux] at h
    split at h
    · rename_i u hk
      split at h
      · rename_i hcond
        rcases List.mem_cons.mp h with heq | hmem
        · subst heq; exact ⟨u, hk, hcond.1⟩
        · exact ih _ a hmem
      · exact ih _ a h
    · exact ih _ a h

theorem dedupAux_pairwise {α : Type} (key : α → Option String) :
    ∀ (l : List α) (seen : List String),
      (dedupAux key seen l).Pairwise (fun a b => key a ≠ key b) ∧
        (∀ a ∈ dedupAux key seen l, ∀ u ∈ seen, key a ≠ some u) := by
  intro l
  induction l with
  | nil => intro seen; simp [dedupAux]
  | cons b rest ih =>
    intro seen
    simp only [dedupAux]
    split
    · rename_i u hk
      split
      · rename_i hcond
        obtain ⟨hpw, hseen⟩ := ih (u :: seen)
        constructor
        · refine List.Pairwise.cons ?_ hpw
          intro c hc
          have hn := hseen c hc u (by simp)
          rw [hk]
          exact fun he => hn he.symm
        · intro a ha v hv
          rcases List.mem_cons.mp ha with rfl | hmem
          · rw [hk]
            intro he
            have huv : u = v := by injection he
            subst huv
            exact hcond.2 (List.elem_iff.mpr hv)
          · exact hseen a hmem v (List.mem_cons_of_mem u hv)
      · exact ih seen
    · exact ih seen

theorem dedupAux_find? {α : Type} (key : α → Option String) :
    ∀ (l : List α) (seen : List String) (u : String), u ≠ "" →
      ¬ seen.contains u = true →
      (dedupAux key seen l).find? (fun a => decide (key a = some u))
        = l.find? (fun a => decide (key a = some u)) := by
  intro l
  induction l with
  | nil => intro seen u _ _; rfl
  | cons b rest ih =>
    intro seen u hu hseen
    simp only [dedupAux]
    split
    · rename_i v hk
      split
      · rename_i hcond
        by_cases hvu : v = u
        · subst hvu
          have hpb : decide (key b = some v) = true := by simp [hk]
          rw [@List.find?_cons_of_pos _ (fun a => decide (key a = some v)) b _ hpb,
            @List.find?_cons_of_pos _ (fun a => decide (key a = some v)) b _ hpb]
        · have hpb : ¬ decide (key b = some u) = true := by
            simp [hk, hvu]
          rw [@List.find?_cons_of_neg _ (fun a => decide (key a = some u)) b _ hpb,
            @List.find?_cons_of_neg _ (fun a => decide (key a = some u)) b _ hpb]
          have hns : ¬ (v :: seen).contains u = true := by
            intro hc
            rcases List.mem_cons.mp (List.elem_iff.mp hc) with he | hm
            · exact hvu he.symm
            · exact hseen (List.elem_iff.mpr hm)
          exact ih _ u hu hns
      · rename_i hcond
        have hvu : v ≠ u := by
          intro he
          subst he
          rcases not_and_or.mp hcond with h1 | h2
          · exact h1 (fun he2 => hu he2)
          · exact hseen (not_not.mp h2)
        have hpb : ¬ decide (key b = some u) = true := by
          simp [hk, hvu]
        rw [@List.find?_cons_of_neg _ (fun a => decide (key a = some u)) b _ hpb]
        exact ih _ u hu hseen
    · rename_i hk
      have hpb : ¬ decide (key b = some u) = true := by
        simp [hk]
      rw [@List.find?_cons_of_neg _ (fun a => decide (key a = some u)) b _ hpb]
      exact ih _ u hu hseen

theorem pyTruncate_eq_take {α : Type} (l : List α) (m : Int) :
    ∃ n, pyTruncate l m = l.take n := by
  unfold pyTruncate pySlice
  split
  · split
    · exact ⟨m.toNat, rfl⟩
    · exact ⟨l.length - (-m).toNat, rfl⟩
  · exact ⟨l.length, (List.take_length l).symm⟩

theorem pyTruncate_length_le {α : Type} (l : List α) (m : Int) (hm : 0 ≤ m) :
    ((pyTruncate l m).length : Int) ≤ m := by
  by_cases hlen : (l.length : Int) > m
  · simp only [pyTruncate, pySlice, if_pos hlen, if_pos hm, List.length_take]
    have h1 : min m.toNat l.length ≤ m.toNat := Nat.min_le_left _ _
    have h2 := Int.toNat_of_nonneg hm
    omega
  · simp only [pyTruncate, if_neg hlen]
    omega

theorem mergeArticles_props (all : List RawArticle) (m : Int) :
    (mergeArticles all m).Pairwise (fun a b => a.url ≠ b.url) ∧
      (∀ a ∈ mergeArticles all m, ∃ u, a.url = some u ∧ u ≠ "") ∧
      (0 ≤ m → ((mergeArticles all m).length : Int) ≤ m) := by
  obtain ⟨n, hn⟩ := pyTruncate_eq_take (dedupByUrl all) m
  have hsub : (mergeArticles all m).Sublist (dedupByUrl all) := by
    rw [mergeArticles, hn]
    exact List.take_sublist n _
  have hpw : (dedupByUrl all).Pairwise (fun a b => a.url ≠ b.url) :=
    (dedupAux_pairwise (fun a => a.url) all []).1
  refine ⟨List.Pairwise.sublist hsub hpw, ?_, fun hm => ?_⟩
  · intro a ha
    have hmem : a ∈ dedupAux (fun a => a.url) [] all := hsub.subset ha
    exact dedupAux_mem_key (fun a => a.url) all [] a hmem
  · exact pyTruncate_length_le _ m hm

/-- Concrete fetch used by C5: every page responds ok with no articles. -/
def c5OkFetch : EverythingParams → Except String PageResp :=
  fun _ => Except.ok { status := "ok", totalResults := 0, articles := [] }

/-- Query with a negative `max_results` (never validated anywhere). -/
def c5NegUq : UserQuery := UserQuery.post_init { q := some "x", max_results := -1 }

/-- Query with the default (non-negative) `max_results`. -/
def c5PosUq : UserQuery := { q := some "x" }

/-- The empty ok result. -/
def c5EmptyRes : ArticlesResult := { status := "ok", totalResults := 0, articles := [] }

/-- The two distinct sources returned by the C5 `get_sources` scenario. -/
def c5TwoSources : List RawSource :=
  [{ id := some "a", payload := "" }, { id := some "b", payload := "" }]

/-- Fetch returning the two sources for every `/sources` request. -/
def c5SourcesFetch : SourcesParams → Except String SourcesResp :=
  fun _ => Except.ok { status := "ok", sources := c5TwoSources }

/-- Query whose `max_results` is 0 (shows `get_sources` does not cap). -/
def c5CapUq : UserQuery := { max_results := 0 }

/-- C5 counterexample — the claim says the merged article list's length
never exceeds the `UserQuery`'s `max_results`, but `max_results` is never
validated: with `max_results = -1` the merged list (here empty, length 0)
already exceeds it. -/
theorem c5_merge_counterexample :
    NewsAPIClient.search_everything c5OkFetch c5NegUq 1 = Except.ok c5EmptyRes
      ∧ ((c5EmptyRes.articles.length : Int) > c5NegUq.max_results) := by
  refine ⟨rfl, by decide⟩

/-- C5 amended — the merged article list returned by `search_everything`
(and `search_top_headlines`) contains pairwise-distinct URLs, keeps for each
URL the first-encountered record in accumulation order (the `find?`
preservation and order-preserving sublist facts about the shared dedup),
silently drops records lacking a URL, and — provided `max_results` is
non-negative — its length never exceeds `max_results`; `get_sources` does
the same keyed by source id, dropping records lacking an id, and its
deduplicated sources list is not capped (concrete uncapped instance). -/
theorem c5_merge_dedup_amended :
    (∀ (fetch : EverythingParams → Except String PageResp) (uq : UserQuery)
        (fuel : Nat) (res : ArticlesResult),
      NewsAPIClient.search_everything fetch uq fuel = Except.ok res →
        res.articles.Pairwise (fun a b => a.url ≠ b.url)
        ∧ (∀ a ∈ res.articles, ∃ u, a.url = some u ∧ u ≠ "")
        ∧ (0 ≤ uq.max_results → (res.articles.length : Int) ≤ uq.max_results))
    ∧ (∀ (fetch : HeadlinesParams → Except String PageResp) (uq : UserQuery)
        (fuel : Nat),
      (NewsAPIClient.search_top_headlines fetch uq fuel).articles.Pairwise
          (fun a b => a.url ≠ b.url)
        ∧ (∀ a ∈ (NewsAPIClient.search_top_headlines fetch uq fuel).articles,
            ∃ u, a.url = some u ∧ u ≠ "")
        ∧ (0 ≤ uq.max_results →
            (((NewsAPIClient.search_top_headlines fetch uq fuel).articles.length : Int)
              ≤ uq.max_results)))
    ∧ (∀ (α : Type) (key : α → Option String) (l : List α) (u : String),
        u ≠ "" →
        (dedupByKey key l).find? (fun a => decide (key a = some u))
          = l.find? (fun a => decide (key a = some u)))
    ∧ (∀ (α : Type) (key : α → Option String) (l : List α),
        (dedupByKey key l).Sublist l)
    ∧ (∀ (fetch : SourcesParams → Except String SourcesResp) (uq : UserQuery),
        (NewsAPIClient.get_sources fetch uq).sources.Pairwise
            (fun a b => a.id ≠ b.id)
        ∧ ∀ s ∈ (NewsAPIClient.get_sources fetch uq).sources,
            ∃ i, s.id = some i ∧ i ≠ "")
    ∧ (NewsAPIClient.get_sources c5SourcesFetch c5CapUq
          = { status := "ok", sources := c5TwoSources }
        ∧ ((c5TwoSources.length : Int) > c5CapUq.max_results)) := by
  refine ⟨?_, ?_, ?_, ?_, ?_, by refine ⟨rfl, by decide⟩⟩
  · intro fetch uq fuel res h
    unfold NewsAPIClient.search_everything at h
    split at h
    · exact absurd h (by simp)
    · have h2 := Except.ok.inj h
      split at h2
      · subst h2
        exact ⟨by simp, by simp, fun hm => by simpa using hm⟩
      · subst h2
        exact mergeArticles_props _ uq.max_results
  · intro fetch uq fuel
    unfold NewsAPIClient.search_top_headlines
    split
    · exact ⟨by simp, by simp, fun hm => by simpa using hm⟩
    · exact mergeArticles_props _ uq.max_results
  · intro α key l u hu
    exact dedupAux_find? key l [] u hu (by simp)
  · intro α key l
    exact dedupAux_sublist key l []
  · intro fetch uq
    unfold NewsAPIClient.get_sources
    split
    · exact ⟨by simp, by simp⟩
    · rename_i all hrun
      constructor
      · exact (dedupAux_pairwise (fun s => s.id) all []).1
      · intro s hs
        have hmem : s ∈ dedupAux (fun s => s.id) [] all := hs
        exact dedupAux_mem_key (fun s => s.id) all [] s hmem

/-- Witness for C5 at a concrete run with non-negative `max_results`. -/
theorem c5_merge_dedup_amended_witness :
    c5EmptyRes.articles.Pairwise (fun a b => a.url ≠ b.url)
      ∧ (∀ a ∈ c5EmptyRes.articles, ∃ u, a.url = some u ∧ u ≠ "")
      ∧ (0 ≤ c5PosUq.max_results →
          ((c5EmptyRes.articles.length : Int) ≤ c5PosUq.max_results)) :=
  c5_merge_dedup_amended.1 c5OkFetch c5PosUq 1 c5EmptyRes rfl

/-! ## C8 — transport failures become uniform error results -/

theorem optIter_ne_nil {α : Type} (o : Option (List α)) : optIter o ≠ [] := by
  cases o with
  | none => simp [optIter]
  | some l =>
    simp only [optIter]
    split
    · simp
    · rename_i h
      simp [List.isEmpty_iff] at h
      simp [h]

theorem chunksOf20_ne_nil {α : Type} (l : List α) (h : l ≠ []) :
    chunksOf20 l ≠ [] := by
  have hl : 0 < l.length := List.length_pos.mpr h
  have hd : 0 < (l.length + 19) / 20 := by omega
  simp only [chunksOf20, ne_eq, List.map_eq_nil_iff, List.range_eq_nil]
  omega

theorem generate_everything_ok_ne_nil (uq : UserQuery)
    (l : List EverythingQuery)
    (h : uq.generate_everything_queries = Except.ok l) : l ≠ [] := by
  unfold UserQuery.generate_everything_queries at h
  split at h
  · exact absurd h (by simp)
  · have h2 := Except.ok.inj h
    subst h2
    obtain ⟨lang, hlang⟩ :=
      List.exists_mem_of_ne_nil _ (optIter_ne_nil uq.languages)
    have hchunks : (if truthyList uq.sources then
        (chunksOf20 (uq.sources.getD [])).map some else [none]) ≠ [] := by
      split
      · rename_i ht
        have hsrc : uq.sources.getD [] ≠ [] := by
          cases hs : uq.sources with
          | none => rw [hs] at ht; simp [truthyList] at ht
          | some ls =>
            rw [hs] at ht
            simp only [truthyList, Bool.not_eq_true'] at ht
            simp [List.isEmpty_iff] at ht
            simpa using ht
        intro hnil
        exact (chunksOf20_ne_nil _ hsrc) (by simpa using hnil)
      · simp
    obtain ⟨chunk, hchunk⟩ := List.exists_mem_of_ne_nil _ hchunks
    exact List.ne_nil_of_mem
      (List.mem_flatMap.mpr ⟨lang, hlang, List.mem_map_of_mem _ hchunk⟩)

theorem generate_sources_ne_nil (uq : UserQuery) :
    uq.generate_sources_queries ≠ [] := by
  unfold UserQuery.generate_sources_queries
  obtain ⟨c, hc⟩ := List.exists_mem_of_ne_nil _ (optIter_ne_nil uq.categories)
  obtain ⟨la, hla⟩ := List.exists_mem_of_ne_nil _ (optIter_ne_nil uq.languages)
  obtain ⟨co, hco⟩ := List.exists_mem_of_ne_nil _ (optIter_ne_nil uq.countries)
  exact List.ne_nil_of_mem
    (List.mem_flatMap.mpr ⟨c, hc,
      List.mem_flatMap.mpr ⟨la, hla, List.mem_map_of_mem _ hco⟩⟩)

theorem runEverythingQueries_error (e : String) (mr : Int) (f : Nat)
    (q : EverythingQuery) (rest : List EverythingQuery)
    (all : List RawArticle) :
    runEverythingQueries (fun _ => Except.error e) mr (f+1) (q :: rest) all
      = Except.error e := rfl

theorem runHeadlinesQueries_error (e : String) (mr : Int) (f : Nat)
    (q : TopHeadlinesQuery) (rest : List TopHeadlinesQuery)
    (all : List RawArticle) :
    runHeadlinesQueries (fun _ => Except.error e) mr (f+1) (q :: rest) all
      = Except.error e := rfl

theorem runSourcesQueries_error (e : String) (queries : List SourcesQuery)
    (all : List RawSource) (hne : queries ≠ []) :
    runSourcesQueries (fun _ => Except.error e) queries all
      = Except.error e := by
  cases queries with
  | nil => exact absurd rfl hne
  | cons q rest => rfl

/-- C8 — whenever a transport-level HTTP exception occurs during
`search_everything`, `search_top_headlines` or `get_sources`, the method
catches it at the top of the operation and returns the uniform error value
(status "error" with an empty record list, and `totalResults = 0` for the
article endpoints) instead of propagating; stated both for an
always-failing transport and generically for any body that raises. -/
theorem c8_transport_error_uniform :
    (∀ (e : String) (uq : UserQuery) (fuel : Nat),
      truthyStr uq.q = true → 1 ≤ fuel →
      NewsAPIClient.search_everything (fun _ => Except.error e) uq fuel
        = Except.ok { status := "error", totalResults := 0, articles := [] })
    ∧ (∀ (e : String) (uq : UserQuery) (fuel : Nat), 1 ≤ fuel →
        uq.generate_headlines_queries ≠ [] →
        NewsAPIClient.search_top_headlines (fun _ => Except.error e) uq fuel
          = { status := "error", totalResults := 0, articles := [] })
    ∧ (∀ (e : String) (uq : UserQuery),
        NewsAPIClient.get_sources (fun _ => Except.error e) uq
          = { status := "error", sources := [] })
    ∧ (∀ (fetch : EverythingParams → Except String PageResp) (uq : UserQuery)
        (fuel : Nat) (queries : List EverythingQuery) (e' : String),
        uq.generate_everything_queries = Except.ok queries →
        runEverythingQueries fetch uq.max_results fuel queries [] = Except.error e' →
        NewsAPIClient.search_everything fetch uq fuel
          = Except.ok { status := "error", totalResults := 0, articles := [] }) := by
  refine ⟨?_, ?_, ?_, ?_⟩
  · intro e uq fuel ht hf
    unfold NewsAPIClient.search_everything
    split
    · rename_i e2 heq
      unfold UserQuery.generate_everything_queries at heq
      rw [if_neg (by simp [ht])] at heq
      exact absurd heq (by simp)
    · rename_i queries heq
      have hne := generate_everything_ok_ne_nil uq queries heq
      cases hq : queries with
      | nil => exact absurd hq hne
      | cons q rest =>
        cases fuel with
        | zero => omega
        | succ f =>
          rw [runEverythingQueries_error]
  · intro e uq fuel hf hne
    unfold NewsAPIClient.search_top_headlines
    cases hq : uq.generate_headlines_queries with
    | nil => exact absurd hq hne
    | cons q rest =>
      cases fuel with
      | zero => omega
      | succ f =>
        rw [runHeadlinesQueries_error]
  · intro e uq
    unfold NewsAPIClient.get_sources
    rw [runSourcesQueries_error e _ _ (generate_sources_ne_nil uq)]
  · intro fetch uq fuel queries e' hgen hrun
    simp only [NewsAPIClient.search_everything, hgen, hrun]

/-- Concrete query used by the C8 witness. -/
def c8Uq : UserQuery := { q := some "x" }

/-- Witness for C8: with an always-failing transport, all three operations
return their uniform error dicts. -/
theorem c8_transport_error_uniform_witness :
    NewsAPIClient.search_everything (fun _ => Except.error "boom") c8Uq 1
        = Except.ok { status := "error", totalResults := 0, articles := [] }
      ∧ NewsAPIClient.search_top_headlines (fun _ => Except.error "boom") c8Uq 1
        = { status := "error", totalResults := 0, articles := [] }
      ∧ NewsAPIClient.get_sources (fun _ => Except.error "boom") c8Uq
        = { status := "error", sources := [] } :=
  ⟨c8_transport_error_uniform.1 "boom" c8Uq 1 rfl (by decide),
   c8_transport_error_uniform.2.1 "boom" c8Uq 1 (by decide) (by decide),
   c8_transport_error_uniform.2.2.1 "boom" c8Uq⟩

/-! ## C9 / C10 — dispatch loop -/

theorem lookupHistory_setHistory (history : List (String × List Message))
    (sid : String) (msgs : List Message) :
    lookupHistory (setHistory history sid msgs) sid = msgs := by
  unfold lookupHistory setHistory
  rw [@List.find?_cons_of_pos _ (fun e => e.1 == sid) (sid, msgs) _ (by simp)]

theorem processLoop_final_join (tools : String → String → String) :
    ∀ (turns : List Turn) (messages : List Message) (inter : List String)
      (out : LoopOut), processLoop tools turns messages inter = some out →
      out.final_response = (if out.intermediate.isEmpty then ""
        else String.intercalate "\n\n" out.intermediate) := by
  intro turns
  induction turns with
  | nil => intro _ _ out h; simp [processLoop] at h
  | cons t rest ih =>
    intro messages inter out h
    simp only [processLoop] at h
    split at h
    · exact ih _ _ out h
    · split at h
      · have h2 := Option.some.inj h
        subst h2
        rfl
      · exact ih _ _ out h

/-- Scenario turns of C9: two text-only turns, then an `end_turn`. -/
def c9Turns : List Turn :=
  [{ stop_reason := "max_tokens", content := [Block.text "A"] },
   { stop_reason := "max_tokens", content := [Block.text "B"] },
   { stop_reason := "end_turn", content := [] }]

/-- The conversation persisted by the C9 scenario. -/
def c9Msgs : List Message :=
  [{ role := "user", content := .text "hi" },
   { role := "assistant", content := .blocks [] }]

/-- The result of the C9 scenario. -/
def c9Res : ProcResult :=
  { response := "A\n\nB", intermediate_responses := ["A", "B"],
    messages := c9Msgs }

/-- C9 — when the oracle returns a turn with stop reason `end_turn`,
`process_request` returns a result whose response equals the accumulated
intermediate text responses joined by a blank line (empty when none),
persists the full conversation (final turn included) under the supplied
session identifier, and returns the intermediate responses and full message
list; in particular two prior text-only turns produce the two texts joined
by a blank line. -/
theorem c9_end_turn_response :
    (∀ (tools : String → String → String) (turns : List Turn)
        (history : List (String × List Message)) (prompt sid : String)
        (res : ProcResult) (hist' : List (String × List Message)),
      NewsAgent.process_request tools turns history prompt (some sid)
          = some (res, hist') →
      res.response = (if res.intermediate_responses.isEmpty then ""
        else String.intercalate "\n\n" res.intermediate_responses)
      ∧ lookupHistory hist' sid = res.messages)
    ∧ (NewsAgent.process_request (fun _ _ => "") c9Turns [] "hi" (some "s1")
        = some (c9Res, [("s1", c9Msgs)])) := by
  constructor
  · intro tools turns history prompt sid res hist' h
    simp only [NewsAgent.process_request] at h
    split at h
    · exact absurd h (by simp)
    · rename_i out hloop
      have h2 := Option.some.inj h
      rw [Prod.mk.injEq] at h2
      obtain ⟨hres, hhist⟩ := h2
      subst hres
      constructor
      · exact processLoop_final_join tools turns _ [] out hloop
      · rw [← hhist, lookupHistory_setHistory]
  · rfl

/-- C10 — a loop iteration whose stop reason is neither `tool_use` nor
`end_turn` leaves the conversation unchanged (the oracle is re-invoked with
the identical messages), appending only the turn's text, if any, to the
intermediate responses; and `process_request`'s loop returns only from a
turn whose stop reason is `end_turn` (with no such turn it never returns). -/
theorem c10_non_terminal_turns :
    (∀ (tools : String → String → String) (t : Turn) (rest : List Turn)
        (msgs : List Message) (inter : List String),
      t.stop_reason ≠ "tool_use" → t.stop_reason ≠ "end_turn" →
      processLoop tools (t :: rest) msgs inter
        = processLoop tools rest msgs
            (inter ++ (if pyStrip (responseText t.content) ≠ "" then
              [responseText t.content] else [])))
    ∧ (∀ (tools : String → String → String) (turns : List Turn)
        (msgs : List Message) (inter : List String),
      (∀ t ∈ turns, t.stop_reason ≠ "end_turn") →
      processLoop tools turns msgs inter = none) := by
  constructor
  · intro tools t rest msgs inter h1 h2
    simp only [processLoop, if_neg h1, if_neg h2]
    by_cases hc : pyStrip (responseText t.content) ≠ ""
    · rw [if_pos hc, if_pos hc]
    · rw [if_neg hc, if_neg hc, List.append_nil]
  · intro tools turns
    induction turns with
    | nil => intro _ _ _; rfl
    | cons t rest ih =>
      intro msgs inter h
      simp only [processLoop]
      split
      · exact ih _ _ (fun t' ht' => h t' (List.mem_cons_of_mem _ ht'))
      · split
        · rename_i hstop
          exact absurd hstop (h t (List.mem_cons_self t rest))
        · exact ih _ _ (fun t' ht' => h t' (List.mem_cons_of_mem _ ht'))

/-- Witness for C10: a concrete `max_tokens` turn steps the loop with the
messages unchanged, and a stream with no `end_turn` yields no return. -/
theorem c10_non_terminal_turns_witness :
    (processLoop (fun _ _ => "")
        [{ stop_reason := "max_tokens", content := [Block.text "A"] }] [] []
      = processLoop (fun _ _ => "") [] []
          ([] ++ (if pyStrip (responseText [Block.text "A"]) ≠ "" then
            [responseText [Block.text "A"]] else [])))
    ∧ processLoop (fun _ _ => "")
        [{ stop_reason := "max_tokens", content := [] }] [] [] = none :=
  ⟨c10_non_terminal_turns.1 (fun _ _ => "")
      { stop_reason := "max_tokens", content := [Block.text "A"] } [] [] []
      (by decide) (by decide),
   c10_non_terminal_turns.2 (fun _ _ => "")
      [{ stop_reason := "max_tokens", content := [] }] [] [] (by decide)⟩

/-- Witness for C9 at the concrete scenario run. -/
theorem c9_end_turn_response_witness :
    (c9Res.response = (if c9Res.intermediate_responses.isEmpty then ""
        else String.intercalate "\n\n" c9Res.intermediate_responses))
      ∧ lookupHistory [("s1", c9Msgs)] "s1" = c9Res.messages :=
  c9_end_turn_response.1 (fun _ _ => "") c9Turns [] "hi" "s1" c9Res
    [("s1", c9Msgs)] rfl
